import Mathlib

/-!
Verification of the Darwin Store order/inventory core.

The repository's storefront/admin UI (React, `src/frontend`) and its
Playwright tests are present in the tree; the FastAPI backend
(`src/app/main.py` and friends, referenced by the Dockerfile and the
testing guide) is not.  Definitions below are therefore of two kinds:

* embedded directly from the TypeScript sources in `src/frontend`
  (the shopping-cart hook `useCart.ts`, the order status transition
  table in `CampaignsTab.tsx`, the field layouts in `types.ts`); and
* modelled from the specification for the missing backend components
  (inventory store, coupon validator, order assembler, invoice
  generator, restock alert monitor); each such definition carries a
  doc comment beginning "Modelled from the spec:".

Money amounts are modelled as rationals, stock counts as integers
(so that non-negativity is a real statement), quantities as naturals.
-/

namespace Store

/-- Order lifecycle states, from `OrderStatus` in
`src/frontend/src/types.ts`. -/
inductive OrderStatus
  | pending
  | processing
  | shipped
  | delivered
  | cancelled
  | returned
deriving DecidableEq

/-- The order status transition table, embedded verbatim from
`STATUS_TRANSITIONS` in `src/frontend/src/components/Admin/CampaignsTab.tsx`
(lines 342-349): each status maps to the list of statuses an order in that
status may move to. -/
def STATUS_TRANSITIONS : OrderStatus → List OrderStatus
  | .pending => [.processing, .cancelled]
  | .processing => [.shipped, .cancelled]
  | .shipped => [.delivered, .cancelled]
  | .delivered => [.returned]
  | .cancelled => []
  | .returned => []

/-- A single order line item, field layout from `OrderItem` in
`src/frontend/src/types.ts`: the unit price is stored on the item itself,
captured at purchase time. -/
structure OrderItem where
  product_id : String
  product_name : String
  quantity : Nat
  unit_price : ℚ
deriving DecidableEq

/-- An order, field layout from `Order` in `src/frontend/src/types.ts`
(timestamps omitted). -/
structure Order where
  id : String
  customer_id : Option String
  items : List OrderItem
  total : ℚ
  status : OrderStatus
  coupon_code : Option String
  discount_amount : ℚ
deriving DecidableEq

/-- Domain errors of the status machine (spec §7). -/
inductive StatusError
  | IllegalStatusTransition
  | NotFound
deriving DecidableEq

/-- Modelled from the spec: the backend `PATCH /orders/{id}/status` handler
is not in the tree.  Per spec §4.3 and §9 the legal-transition check is an
explicit transition-table lookup performed before any write, rejecting with
`IllegalStatusTransition` otherwise; the table itself is the one embedded
from the source (`STATUS_TRANSITIONS`). -/
def updateOrderStatus (o : Order) (target : OrderStatus) :
    Except StatusError Order :=
  if target ∈ STATUS_TRANSITIONS o.status then
    .ok { o with status := target }
  else
    .error .IllegalStatusTransition

/-- The transition relation exactly as the claim words it: the chain
pending → processing → shipped → delivered → returned, with cancelled
reachable only from pending or processing; cancelled and returned terminal.
This definition follows the claim's words, for comparison against the
table in the source. -/
def claimedLegalTransition : OrderStatus → OrderStatus → Bool
  | .pending, .processing => true
  | .processing, .shipped => true
  | .shipped, .delivered => true
  | .delivered, .returned => true
  | .pending, .cancelled => true
  | .processing, .cancelled => true
  | _, _ => false

/-- The transition relation of the amended claim: as the code's table has
it, cancelled is reachable from pending, processing, or shipped. -/
def amendedLegalTransition : OrderStatus → OrderStatus → Bool
  | .pending, .processing => true
  | .processing, .shipped => true
  | .shipped, .delivered => true
  | .delivered, .returned => true
  | .pending, .cancelled => true
  | .processing, .cancelled => true
  | .shipped, .cancelled => true
  | _, _ => false

/-! ### Shopping cart, embedded from `src/frontend/src/hooks/useCart.ts` -/

/-- Shopping-cart line item, from `CartItem` in `src/frontend/src/types.ts`. -/
structure CartItem where
  product_id : String
  product_name : String
  price : ℚ
  quantity : Int
deriving DecidableEq

/-- The product argument of `addItem` in `useCart.ts`:
`{ id: string; name: string; price: number }`. -/
structure ProductRef where
  id : String
  name : String
  price : ℚ
deriving DecidableEq

/-- `addItem` from `useCart.ts`: if a line with the product's id exists,
bump its quantity by `qty`; otherwise append a new line. -/
def addItem (prev : List CartItem) (product : ProductRef) (qty : Int) :
    List CartItem :=
  match prev.find? (fun i => i.product_id == product.id) with
  | some _ =>
      prev.map (fun i =>
        if i.product_id == product.id then
          { i with quantity := i.quantity + qty }
        else i)
  | none =>
      prev ++ [{ product_id := product.id, product_name := product.name,
                 price := product.price, quantity := qty }]

/-- `removeItem` from `useCart.ts`: drop the line with the given id. -/
def removeItem (prev : List CartItem) (productId : String) : List CartItem :=
  prev.filter (fun i => !(i.product_id == productId))

/-- `updateQuantity` from `useCart.ts`: with quantity ≤ 0 the line is
deleted, otherwise its quantity is replaced. -/
def updateQuantity (prev : List CartItem) (productId : String)
    (quantity : Int) : List CartItem :=
  if quantity ≤ 0 then
    prev.filter (fun i => !(i.product_id == productId))
  else
    prev.map (fun i =>
      if i.product_id == productId then { i with quantity := quantity } else i)

/-- `clear` from `useCart.ts`. -/
def clearCart (_prev : List CartItem) : List CartItem := []

/-- The list of product ids of the cart lines. -/
def cartIds (l : List CartItem) : List String :=
  l.map (fun i => i.product_id)

/-! ### Backend core, modelled from the spec

The FastAPI backend (`src/app/main.py`) is not in the tree; only its
Dockerfile, testing guide and the frontend that calls it are.  The
definitions below model the spec's components §4.1-§4.5, with field
layouts taken from `src/frontend/src/types.ts`. -/

/-- Product record, field layout from `Product` in
`src/frontend/src/types.ts` (image and timestamps omitted).  Stock is an
integer so that non-negativity is a real statement. -/
structure Product where
  id : String
  name : String
  sku : String
  price : ℚ
  stock : Int
  reorder_threshold : Int
  supplier_id : Option String
deriving DecidableEq

/-- Coupon discount type, from `Coupon` in `src/frontend/src/types.ts`. -/
inductive DiscountType
  | percentage
  | fixed
deriving DecidableEq

/-- Coupon record, field layout from `Coupon` in
`src/frontend/src/types.ts`; the expiry timestamp is modelled as a
natural-number clock value. -/
structure Coupon where
  code : String
  discount_type : DiscountType
  discount_value : ℚ
  min_order_amount : ℚ
  max_uses : Nat
  current_uses : Nat
  expires_at : Option Nat
  is_active : Bool
deriving DecidableEq

/-- Customer record (subset of `Customer` in `src/frontend/src/types.ts`). -/
structure Customer where
  id : String
  name : String
  email : String
  address : String
deriving DecidableEq

/-- Frozen customer snapshot stored on an invoice, from
`CustomerSnapshot` in `src/frontend/src/types.ts`. -/
structure CustomerSnapshot where
  name : String
  email : String
  address : String
deriving DecidableEq

/-- Frozen line-item snapshot stored on an invoice, from
`InvoiceLineItem` in `src/frontend/src/types.ts` (sku omitted). -/
structure InvoiceLineItem where
  product_name : String
  quantity : Nat
  unit_price : ℚ
  line_total : ℚ
deriving DecidableEq

/-- Invoice record, field layout from `Invoice` in
`src/frontend/src/types.ts`; the sequential invoice number is a natural
number. -/
structure Invoice where
  id : String
  invoice_number : Nat
  order_id : String
  customer_snapshot : Option CustomerSnapshot
  line_items : List InvoiceLineItem
  subtotal : ℚ
  discount_amount : ℚ
  grand_total : ℚ
deriving DecidableEq

/-- The relational store: one record per table (spec §6), plus the
invoice-number sequence. -/
structure StoreState where
  products : List Product
  customers : List Customer
  orders : List Order
  coupons : List Coupon
  invoices : List Invoice
  next_invoice_number : Nat
deriving DecidableEq

/-! #### Coupon Validator (spec §4.2) -/

/-- Machine-readable reasons of `InvalidCoupon` (spec §4.2/§7), one per
validator rule. -/
inductive CouponReason
  | notFound
  | inactive
  | expired
  | minOrderNotMet
  | usageLimitReached
deriving DecidableEq

/-- Result type of coupon validation, from `CouponValidationResult` in
`src/frontend/src/types.ts`. -/
inductive CouponValidationResult
  | valid (coupon : Coupon) (discount_amount : ℚ)
  | invalid (reason : CouponReason)
deriving DecidableEq

/-- Character-wise upper-casing (the effect of JavaScript's
`toUpperCase()` on the ASCII coupon codes used throughout the sources). -/
def upperStr (s : String) : String :=
  ⟨s.data.map Char.toUpper⟩

/-- Modelled from the spec: rule (a) of §4.2 — the coupon code lookup is a
case-insensitive match. -/
def findCoupon (coupons : List Coupon) (code : String) : Option Coupon :=
  coupons.find? (fun c => upperStr c.code == upperStr code)

/-- Modelled from the spec: rule (c) of §4.2 — expiry is compared against
the current time; a coupon with no expiry never expires. -/
def couponExpired (c : Coupon) (now : Nat) : Bool :=
  match c.expires_at with
  | some t => decide (t < now)
  | none => false

/-- Modelled from the spec: discount computation of §4.2 — percentage type
gives `cartTotal × value/100` capped at the cart total, fixed type gives
`min(value, cartTotal)`. -/
def computeDiscount (c : Coupon) (cartTotal : ℚ) : ℚ :=
  match c.discount_type with
  | .percentage => min (cartTotal * c.discount_value / 100) cartTotal
  | .fixed => min c.discount_value cartTotal

/-- Modelled from the spec: `validate(code, cartTotal)` of §4.2 — the
backend `/coupons/validate` handler is not in the tree.  Rules are checked
in the fixed order (a) code exists case-insensitively, (b) active,
(c) not expired, (d) cart total reaches the minimum order amount,
(e) `max_uses == 0` or `current_uses < max_uses`; the first failing rule's
reason is returned.  The function is read-only: it takes the coupon table
and returns only a result. -/
def validateCoupon (coupons : List Coupon) (code : String) (cartTotal : ℚ)
    (now : Nat) : CouponValidationResult :=
  match findCoupon coupons code with
  | none => .invalid .notFound
  | some c =>
      if c.is_active = false then .invalid .inactive
      else if couponExpired c now then .invalid .expired
      else if cartTotal < c.min_order_amount then .invalid .minOrderNotMet
      else if c.max_uses ≠ 0 ∧ c.max_uses ≤ c.current_uses then
        .invalid .usageLimitReached
      else .valid c (computeDiscount c cartTotal)

/-! #### Inventory Store and Order Assembler (spec §4.1, §4.3) -/

/-- Placement errors (spec §7). -/
inductive PlaceError
  | InsufficientStock
  | InvalidCoupon (reason : CouponReason)
  | NotFound
deriving DecidableEq

/-- Modelled from the spec: §4.1's atomic conditional decrement applied to
each cart line in turn — "decrement stock by N only if stock ≥ N" — while
capturing each line's unit price from the product's current price (§4.3
step 3).  Returns the updated product table and the order items, or the
first failure. -/
def reserveLines (products : List Product) :
    List (String × Nat) → Except PlaceError (List Product × List OrderItem)
  | [] => .ok (products, [])
  | (pid, qty) :: rest =>
      match products.find? (fun p => p.id == pid) with
      | none => .error .NotFound
      | some p =>
          if (qty : Int) ≤ p.stock then
            match reserveLines
                (products.map (fun q =>
                  if q.id == pid then { q with stock := q.stock - (qty : Int) }
                  else q)) rest with
            | .ok (ps, its) =>
                .ok (ps, { product_id := pid, product_name := p.name,
                           quantity := qty, unit_price := p.price } :: its)
            | .error e => .error e
          else .error .InsufficientStock

/-- Sum over order items of unit price × quantity. -/
def itemsSubtotal (items : List OrderItem) : ℚ :=
  items.foldr (fun it acc => it.unit_price * (it.quantity : ℚ) + acc) 0

/-- Redeeming a coupon: bump the use counter of the case-insensitively
matching coupon (spec §4.3 step 5). -/
def incrementUses (coupons : List Coupon) (code : String) : List Coupon :=
  coupons.map (fun k =>
    if upperStr k.code == upperStr code then
      { k with current_uses := k.current_uses + 1 }
    else k)

/-- Modelled from the spec: the order placement transaction of §4.3 — the
backend `POST /orders` handler is not in the tree.  Reserve stock for every
line, re-validate a supplied coupon against the computed subtotal, persist
the order with status pending and captured unit prices, and increment the
coupon's use counter, all in one transaction; on any failure the original
state is returned untouched (rollback). -/
def placeOrder (st : StoreState) (oid : String) (cust : Option String)
    (lines : List (String × Nat)) (coupon_code : Option String) (now : Nat) :
    StoreState × Except PlaceError Order :=
  match reserveLines st.products lines with
  | .error e => (st, .error e)
  | .ok (products', items) =>
      match coupon_code with
      | none =>
          let o : Order :=
            { id := oid, customer_id := cust, items := items,
              total := itemsSubtotal items, status := .pending,
              coupon_code := none, discount_amount := 0 }
          ({ st with products := products', orders := st.orders ++ [o] },
           .ok o)
      | some code =>
          match validateCoupon st.coupons code (itemsSubtotal items) now with
          | .invalid r => (st, .error (.InvalidCoupon r))
          | .valid _ disc =>
              let o : Order :=
                { id := oid, customer_id := cust, items := items,
                  total := itemsSubtotal items - disc, status := .pending,
                  coupon_code := some code, discount_amount := disc }
              ({ st with products := products',
                         orders := st.orders ++ [o],
                         coupons := incrementUses st.coupons code },
               .ok o)

/-- Stock of a product in the store, by id. -/
def stockOf (st : StoreState) (pid : String) : Option Int :=
  (st.products.find? (fun p => p.id == pid)).map (fun p => p.stock)

/-! #### Invoice Generator (spec §4.4) -/

/-- Modelled from the spec: §4.4's snapshots — customer fields and line
items are copied by value at generation time. -/
def customerSnapshotOf (st : StoreState) (o : Order) :
    Option CustomerSnapshot :=
  o.customer_id.bind (fun cid =>
    (st.customers.find? (fun c => c.id == cid)).map (fun c =>
      { name := c.name, email := c.email, address := c.address }))

/-- Modelled from the spec: the line-item snapshot of §4.4, copied from
the order's items (whose unit prices were captured at purchase time). -/
def lineSnapshotOf (o : Order) : List InvoiceLineItem :=
  o.items.map (fun it =>
    { product_name := it.product_name, quantity := it.quantity,
      unit_price := it.unit_price,
      line_total := it.unit_price * (it.quantity : ℚ) })

/-- Modelled from the spec: `generate(orderId)` of §4.4 — the backend
`POST /orders/{id}/invoice` handler is not in the tree.  If the order has
already been invoiced, the existing invoice is returned unchanged
(idempotence); otherwise a new invoice with the next sequential number is
appended, snapshotting the customer and the line items by value. -/
def generateInvoice (st : StoreState) (orderId : String) :
    StoreState × Except StatusError Invoice :=
  match st.invoices.find? (fun i => i.order_id == orderId) with
  | some inv => (st, .ok inv)
  | none =>
      match st.orders.find? (fun o => o.id == orderId) with
      | none => (st, .error .NotFound)
      | some o =>
          let n := st.next_invoice_number
          let sub := itemsSubtotal o.items
          let inv : Invoice :=
            { id := "INV-" ++ toString n, invoice_number := n,
              order_id := orderId,
              customer_snapshot := customerSnapshotOf st o,
              line_items := lineSnapshotOf o,
              subtotal := sub, discount_amount := o.discount_amount,
              grand_total := sub - o.discount_amount }
          ({ st with invoices := st.invoices ++ [inv],
                     next_invoice_number := n + 1 },
           .ok inv)

/-- Admin edit of a product's price (spec §3: products are mutated by
admin edits). -/
def updateProductPrice (st : StoreState) (pid : String) (newPrice : ℚ) :
    StoreState :=
  { st with products := st.products.map (fun p =>
      if p.id == pid then { p with price := newPrice } else p) }

/-- Admin edit of a customer's address (spec §3). -/
def updateCustomerAddress (st : StoreState) (cid : String) (addr : String) :
    StoreState :=
  { st with customers := st.customers.map (fun c =>
      if c.id == cid then { c with address := addr } else c) }

/-! #### Restock Alert Monitor (spec §4.5) -/

/-- Alert lifecycle states, from `Alert` in `src/frontend/src/types.ts`. -/
inductive AlertStatus
  | active
  | ordered
  | dismissed
deriving DecidableEq

/-- Restock alert record, field layout from `Alert` in
`src/frontend/src/types.ts` (ids as naturals, timestamps omitted). -/
structure Alert where
  id : Nat
  product_id : String
  current_stock : Int
  reorder_threshold : Int
  supplier_id : Option String
  status : AlertStatus
deriving DecidableEq

/-- Alert domain errors. -/
inductive AlertError
  | NotFound
  | IllegalAlertTransition
deriving DecidableEq

/-- Whether some alert for this product is currently active. -/
def hasActiveAlert (alerts : List Alert) (pid : String) : Bool :=
  alerts.any (fun a => a.product_id == pid && a.status == AlertStatus.active)

/-- A fresh active alert for a product, recording the stock and threshold
at creation time (spec §3). -/
def mkAlert (n : Nat) (p : Product) : Alert :=
  { id := n, product_id := p.id, current_stock := p.stock,
    reorder_threshold := p.reorder_threshold,
    supplier_id := p.supplier_id, status := .active }

/-- Modelled from the spec: the restock monitor rule of §4.5 — the backend
alert logic is not in the tree.  After a stock-decreasing operation, if the
product's new stock is at or below its reorder threshold and no active
alert exists for it, append a fresh active alert; otherwise change
nothing. -/
def onStockDecrease (alerts : List Alert) (nextId : Nat) (p : Product) :
    List Alert × Nat :=
  if p.stock ≤ p.reorder_threshold ∧ hasActiveAlert alerts p.id = false then
    (alerts ++ [mkAlert nextId p], nextId + 1)
  else (alerts, nextId)

/-- Modelled from the spec: the admin alert status update of §4.5 — only
active → ordered and active → dismissed are permitted; ordered and
dismissed are terminal for that alert record.  The frontend
(`AlertsTab.tsx`) offers these actions only on active alerts. -/
def alertUpdateStatus (alerts : List Alert) (aid : Nat)
    (target : AlertStatus) : Except AlertError (List Alert) :=
  match alerts.find? (fun a => a.id == aid) with
  | none => .error .NotFound
  | some a =>
      if a.status = .active ∧ (target = .ordered ∨ target = .dismissed) then
        .ok (alerts.map (fun b =>
          if b.id == aid then { b with status := target } else b))
      else .error .IllegalAlertTransition

/-- At most one active alert per product: no two distinct positions of the
alert table hold active alerts for the same product. -/
def AtMostOneActive (alerts : List Alert) : Prop :=
  alerts.Pairwise (fun a b =>
    ¬(a.product_id = b.product_id ∧ a.status = .active ∧ b.status = .active))

/-! ### Invoice generator theorems (C7, C8) -/

/-- Invoice numbers are the gapless ascending sequence 1, 2, …, k and the
next number to assign is k+1. -/
def InvoiceNumbersOk (st : StoreState) : Prop :=
  st.invoices.map (fun i => i.invoice_number) =
    List.range' 1 st.invoices.length ∧
  st.next_invoice_number = st.invoices.length + 1

/-! ## Theorems -/

/-- C2 counterexample: the claim says cancelled is reachable only from
pending or processing, so a request shipped → cancelled must be rejected;
but the code's transition table (`STATUS_TRANSITIONS` in
`CampaignsTab.tsx`) lists cancelled among the successors of shipped, and
the status update accepts it. -/
theorem statusTransition_claim_counterexample :
    claimedLegalTransition OrderStatus.shipped OrderStatus.cancelled = false ∧
    updateOrderStatus ⟨"o1", none, [], 0, .shipped, none, 0⟩ OrderStatus.cancelled =
      .ok ⟨"o1", none, [], 0, .cancelled, none, 0⟩ := by
  constructor
  · rfl
  · rfl

/-- C2 (amended): a status update request is accepted, changing exactly the
status field, if and only if the target is a legal transition of the
machine pending → processing → shipped → delivered → returned with
cancelled reachable from pending, processing, or shipped (delivered may
still go to returned; cancelled and returned are terminal); every other
request is rejected with `IllegalStatusTransition`, leaving the order
unchanged. -/
theorem updateOrderStatus_amended (o : Order) (t : OrderStatus) :
    (updateOrderStatus o t = .ok { o with status := t } ↔
      amendedLegalTransition o.status t = true) ∧
    (amendedLegalTransition o.status t = false →
      updateOrderStatus o t = .error .IllegalStatusTransition) := by
  cases h : o.status <;> cases t <;>
    simp_all [updateOrderStatus, STATUS_TRANSITIONS, amendedLegalTransition]

/-- C2 witness: the scenario of the claim at concrete inputs — an order in
status delivered: the request delivered → processing is rejected with
`IllegalStatusTransition`, and delivered → returned is accepted. -/
theorem updateOrderStatus_amended_witness :
    amendedLegalTransition OrderStatus.delivered OrderStatus.processing = false ∧
    updateOrderStatus ⟨"o2", none, [], 0, .delivered, none, 0⟩ OrderStatus.processing =
      .error .IllegalStatusTransition ∧
    updateOrderStatus ⟨"o2", none, [], 0, .delivered, none, 0⟩ OrderStatus.returned =
      .ok ⟨"o2", none, [], 0, .returned, none, 0⟩ :=
  ⟨by decide,
   (updateOrderStatus_amended ⟨"o2", none, [], 0, .delivered, none, 0⟩
      OrderStatus.processing).2 (by decide),
   (updateOrderStatus_amended ⟨"o2", none, [], 0, .delivered, none, 0⟩
      OrderStatus.returned).1.2 (by decide)⟩

theorem cartIds_map_of_preserve (l : List CartItem) (f : CartItem → CartItem)
    (hf : ∀ i, (f i).product_id = i.product_id) :
    cartIds (l.map f) = cartIds l := by
  unfold cartIds
  rw [List.map_map]
  exact List.map_congr_left (fun i _ => hf i)

theorem find?_map_of_preserve (l : List CartItem) (p : CartItem → Bool)
    (f : CartItem → CartItem) (hf : ∀ i, p (f i) = p i) :
    (l.map f).find? p = (l.find? p).map f := by
  induction l with
  | nil => rfl
  | cons a t ih =>
      by_cases hpa : p a = true
      · rw [List.map_cons, List.find?_cons_of_pos _ ((hf a).trans hpa),
          List.find?_cons_of_pos _ hpa, Option.map_some']
      · have hpa' : p a = false := by simpa using hpa
        rw [List.map_cons, List.find?_cons_of_neg _ (by simp [hf a, hpa']),
          List.find?_cons_of_neg _ (by simp [hpa']), ih]

theorem nodup_append_singleton {l : List String} {x : String}
    (h : l.Nodup) (hx : x ∉ l) : (l ++ [x]).Nodup := by
  refine List.Nodup.append h (List.nodup_singleton x) ?_
  intro a ha hb
  have hax : a = x := by simpa using hb
  exact hx (hax ▸ ha)

theorem not_mem_cartIds_of_find?_eq_none {l : List CartItem} {x : String}
    (h : l.find? (fun i => i.product_id == x) = none) : x ∉ cartIds l := by
  intro hx
  rcases List.mem_map.mp hx with ⟨i, hi, hix⟩
  have hfalse := List.find?_eq_none.mp h i hi
  simp [hix] at hfalse

/-- C10: the cart never holds two lines with the same product id.
`addItem` of a product already in the cart bumps that line's quantity by
the given qty, adds no new line and keeps the ids unchanged; `addItem` of
a new product appends exactly one line; `removeItem`, `updateQuantity`
and `clear` all preserve the uniqueness of product ids. -/
theorem cart_unique_product_ids (items : List CartItem)
    (hu : (cartIds items).Nodup) (p : ProductRef) (qty : Int)
    (pid : String) (q : Int) :
    (cartIds (addItem items p qty)).Nodup ∧
    (cartIds (removeItem items pid)).Nodup ∧
    (cartIds (updateQuantity items pid q)).Nodup ∧
    (cartIds (clearCart items)).Nodup ∧
    (∀ e, items.find? (fun i => i.product_id == p.id) = some e →
      cartIds (addItem items p qty) = cartIds items ∧
      (addItem items p qty).find? (fun i => i.product_id == p.id) =
        some { e with quantity := e.quantity + qty }) ∧
    (items.find? (fun i => i.product_id == p.id) = none →
      addItem items p qty =
        items ++ [⟨p.id, p.name, p.price, qty⟩]) := by
  have hpreserve : ∀ (x : String) (i : CartItem),
      ((if i.product_id == x then { i with quantity := i.quantity + qty }
        else i) : CartItem).product_id = i.product_id := by
    intro x i
    split <;> rfl
  have hpreserveq : ∀ i : CartItem,
      ((if i.product_id == pid then { i with quantity := q }
        else i) : CartItem).product_id = i.product_id := by
    intro i
    split <;> rfl
  refine ⟨?_, ?_, ?_, ?_, ?_, ?_⟩
  · unfold addItem
    cases hfind : items.find? (fun i => i.product_id == p.id) with
    | some e =>
        rw [cartIds_map_of_preserve _ _ (hpreserve p.id)]
        exact hu
    | none =>
        have hnm := not_mem_cartIds_of_find?_eq_none hfind
        unfold cartIds
        rw [List.map_append]
        exact nodup_append_singleton hu hnm
  · exact hu.sublist ((List.filter_sublist items).map _)
  · unfold updateQuantity
    split
    · exact hu.sublist ((List.filter_sublist items).map _)
    · rw [cartIds_map_of_preserve _ _ hpreserveq]
      exact hu
  · exact List.nodup_nil
  · intro e hfind
    have hpe := List.find?_some hfind
    simp only [] at hpe
    constructor
    · unfold addItem
      rw [hfind]
      exact cartIds_map_of_preserve _ _ (hpreserve p.id)
    · unfold addItem
      rw [hfind, find?_map_of_preserve _ _ _
        (fun i => by rw [hpreserve p.id i]), hfind, Option.map_some']
      simp [hpe]
  · intro hfind
    unfold addItem
    rw [hfind]

/-! ### Coupon validator theorems (C4, C5) -/

/-- C4: `validate(code, cartTotal)` checks the rules in the fixed order
(a) case-insensitive code lookup, (b) active, (c) not expired, (d) cart
total reaches the minimum order amount, (e) unlimited or under the usage
limit, and returns invalid with the reason of the first failing rule;
when every rule passes it returns valid with the computed discount.
The validator is read-only by type: it returns only a result, never a
changed state. -/
theorem validateCoupon_rule_order (coupons : List Coupon) (code : String)
    (total : ℚ) (now : Nat) :
    (findCoupon coupons code = none →
      validateCoupon coupons code total now = .invalid .notFound) ∧
    (∀ c, findCoupon coupons code = some c →
      (c.is_active = false →
        validateCoupon coupons code total now = .invalid .inactive) ∧
      (c.is_active = true → couponExpired c now = true →
        validateCoupon coupons code total now = .invalid .expired) ∧
      (c.is_active = true → couponExpired c now = false →
        total < c.min_order_amount →
        validateCoupon coupons code total now = .invalid .minOrderNotMet) ∧
      (c.is_active = true → couponExpired c now = false →
        ¬total < c.min_order_amount → c.max_uses ≠ 0 →
        c.max_uses ≤ c.current_uses →
        validateCoupon coupons code total now = .invalid .usageLimitReached) ∧
      (c.is_active = true → couponExpired c now = false →
        ¬total < c.min_order_amount →
        (c.max_uses = 0 ∨ c.current_uses < c.max_uses) →
        validateCoupon coupons code total now =
          .valid c (computeDiscount c total))) := by
  constructor
  · intro h
    unfold validateCoupon
    rw [h]
  · intro c hc
    refine ⟨?_, ?_, ?_, ?_, ?_⟩ <;> unfold validateCoupon <;> rw [hc]
    · intro h1
      simp [h1]
    · intro h1 h2
      simp [h1, h2]
    · intro h1 h2 h3
      simp [h1, h2, h3]
    · intro h1 h2 h3 h4 h5
      simp [h1, h2, h3, h4, h5]
    · intro h1 h2 h3 h4
      have h5 : ¬(c.max_uses ≠ 0 ∧ c.max_uses ≤ c.current_uses) := by
        rcases h4 with h4 | h4
        · exact fun hk => hk.1 h4
        · exact fun hk => absurd h4 (not_lt.mpr hk.2)
      simp [h1, h2, h3, h5]

/-- C4 witness: the claim's scenario — coupon SAVE10, 10 percent with a
minimum order of 50, applied to a cart totalling 40: the lookup succeeds
and validation fails with the minimum-order reason (valid: false). -/
theorem validateCoupon_rule_order_witness :
    findCoupon [⟨"SAVE10", DiscountType.percentage, 10, 50, 0, 0, none, true⟩]
        "SAVE10" =
      some ⟨"SAVE10", DiscountType.percentage, 10, 50, 0, 0, none, true⟩ ∧
    validateCoupon
        [⟨"SAVE10", DiscountType.percentage, 10, 50, 0, 0, none, true⟩]
        "SAVE10" 40 0 = .invalid .minOrderNotMet := by
  have hfind : findCoupon
      [⟨"SAVE10", DiscountType.percentage, 10, 50, 0, 0, none, true⟩]
      "SAVE10" =
      some ⟨"SAVE10", DiscountType.percentage, 10, 50, 0, 0, none, true⟩ := by
    decide
  refine ⟨hfind, ?_⟩
  exact (((validateCoupon_rule_order
    [⟨"SAVE10", DiscountType.percentage, 10, 50, 0, 0, none, true⟩]
    "SAVE10" 40 0).2 _ hfind).2.2.1) rfl rfl (by norm_num)

/-- C5: for a coupon with non-negative value and a non-negative cart total,
the computed discount is non-negative, never exceeds the cart total, and
equals `cartTotal × value/100` capped at the cart total for percentage
coupons and `min(value, cartTotal)` for fixed coupons. -/
theorem computeDiscount_spec (c : Coupon) (total : ℚ) (h0 : 0 ≤ total)
    (hv : 0 ≤ c.discount_value) :
    0 ≤ computeDiscount c total ∧ computeDiscount c total ≤ total ∧
    (c.discount_type = .percentage →
      computeDiscount c total = min (total * c.discount_value / 100) total) ∧
    (c.discount_type = .fixed →
      computeDiscount c total = min c.discount_value total) := by
  obtain ⟨cc, dt, dv, mo, mu, cu, ex, ia⟩ := c
  cases dt with
  | percentage =>
      refine ⟨le_min (div_nonneg (mul_nonneg h0 hv) (by norm_num)) h0,
        min_le_right _ _, fun _ => rfl, fun hf => by simp at hf⟩
  | fixed =>
      exact ⟨le_min hv h0, min_le_right _ _, fun hp => by simp at hp,
        fun _ => rfl⟩

/-- C5 witness: the claim's scenario — an order of 100 with the 10 percent
coupon SAVE10 yields a discount of exactly 10, so the order total is 90;
the general bounds hold at these inputs. -/
theorem computeDiscount_spec_witness :
    (0 : ℚ) ≤ 100 ∧
    (0 ≤ computeDiscount
        ⟨"SAVE10", DiscountType.percentage, 10, 50, 0, 0, none, true⟩ 100 ∧
      computeDiscount
        ⟨"SAVE10", DiscountType.percentage, 10, 50, 0, 0, none, true⟩ 100 ≤ 100 ∧
      (DiscountType.percentage = DiscountType.percentage →
        computeDiscount
          ⟨"SAVE10", DiscountType.percentage, 10, 50, 0, 0, none, true⟩ 100 =
          min ((100 : ℚ) * 10 / 100) 100) ∧
      (DiscountType.percentage = DiscountType.fixed →
        computeDiscount
          ⟨"SAVE10", DiscountType.percentage, 10, 50, 0, 0, none, true⟩ 100 =
          min (10 : ℚ) 100)) ∧
    computeDiscount
      ⟨"SAVE10", DiscountType.percentage, 10, 50, 0, 0, none, true⟩ 100 = 10 ∧
    (100 : ℚ) - computeDiscount
      ⟨"SAVE10", DiscountType.percentage, 10, 50, 0, 0, none, true⟩ 100 = 90 :=
  ⟨by norm_num,
   computeDiscount_spec
     ⟨"SAVE10", DiscountType.percentage, 10, 50, 0, 0, none, true⟩ 100
     (by norm_num) (by norm_num),
   by show min ((100 : ℚ) * 10 / 100) 100 = 10; norm_num,
   by show (100 : ℚ) - min ((100 : ℚ) * 10 / 100) 100 = 90; norm_num⟩

/-! ### Order assembler theorems (C3, C6, C1) -/

/-- C3: order placement is all-or-nothing.  A placement that fails at any
step returns the store untouched — no order, no order item, no stock
decrement, no coupon-counter change survive the failure; on success the
coupon table is unchanged when no coupon was consumed, and is exactly the
single-counter increment of the consumed coupon otherwise; no coupon's use
counter ever decreases across a placement. -/
theorem placeOrder_atomic_rollback (st : StoreState) (oid : String)
    (cust : Option String) (lines : List (String × Nat))
    (code : Option String) (now : Nat) (st' : StoreState)
    (r : Except PlaceError Order)
    (h : placeOrder st oid cust lines code now = (st', r)) :
    (∀ e, r = .error e → st' = st) ∧
    (∀ o, r = .ok o →
      (o.coupon_code = none → st'.coupons = st.coupons) ∧
      ∀ cc, o.coupon_code = some cc →
        st'.coupons = incrementUses st.coupons cc) ∧
    st'.coupons.length = st.coupons.length ∧
    (∀ i (h1 : i < st.coupons.length) (h2 : i < st'.coupons.length),
      (st.coupons.get ⟨i, h1⟩).current_uses ≤
        (st'.coupons.get ⟨i, h2⟩).current_uses) := by
  unfold placeOrder at h
  cases hres : reserveLines st.products lines with
  | error e =>
      rw [hres] at h
      injection h with hA hB
      subst hA
      subst hB
      exact ⟨fun _ _ => rfl, fun o ho => Except.noConfusion ho, rfl,
        fun i h1 h2 => le_refl _⟩
  | ok pr =>
      rw [hres] at h
      obtain ⟨products', items⟩ := pr
      cases code with
      | none =>
          simp only [] at h
          injection h with hA hB
          subst hA
          subst hB
          refine ⟨fun e he => Except.noConfusion he, ?_, rfl,
            fun i h1 h2 => le_refl _⟩
          intro o' ho'
          injection ho' with ho''
          subst ho''
          exact ⟨fun _ => rfl, fun cc hcc => Option.noConfusion hcc⟩
      | some c =>
          simp only [] at h
          cases hval : validateCoupon st.coupons c (itemsSubtotal items) now with
          | invalid reason =>
              rw [hval] at h
              injection h with hA hB
              subst hA
              subst hB
              exact ⟨fun _ _ => rfl, fun o ho => Except.noConfusion ho, rfl,
                fun i h1 h2 => le_refl _⟩
          | valid k disc =>
              rw [hval] at h
              simp only [] at h
              injection h with hA hB
              subst hA
              subst hB
              refine ⟨fun e he => Except.noConfusion he, ?_, ?_, ?_⟩
              · intro o' ho'
                injection ho' with ho''
                subst ho''
                refine ⟨fun hnone => Option.noConfusion hnone, ?_⟩
                intro cc hcc
                injection hcc with hcc'
                subst hcc'
                rfl
              · simp [incrementUses]
              · intro i h1 h2
                have hg : (incrementUses st.coupons c).get
                    ⟨i, by simpa [incrementUses] using h1⟩ =
                    (fun k =>
                      if upperStr k.code == upperStr c then
                        { k with current_uses := k.current_uses + 1 }
                      else k) (st.coupons.get ⟨i, h1⟩) := by
                  simp [incrementUses]
                simp only [hg]
                split
                · exact Nat.le_succ _
                · exact le_refl _

/-- C3 witness: a placement of an unknown product against the empty store
fails, and by the rollback theorem the returned store is the original. -/
theorem placeOrder_atomic_rollback_witness :
    placeOrder ⟨[], [], [], [], [], 1⟩ "o1" none [("p1", 1)] none 0 =
      (⟨[], [], [], [], [], 1⟩, Except.error PlaceError.NotFound) ∧
    (⟨[], [], [], [], [], 1⟩ : StoreState) = ⟨[], [], [], [], [], 1⟩ :=
  ⟨rfl,
   (placeOrder_atomic_rollback ⟨[], [], [], [], [], 1⟩ "o1" none [("p1", 1)]
       none 0 ⟨[], [], [], [], [], 1⟩ (Except.error PlaceError.NotFound)
       rfl).1 PlaceError.NotFound rfl⟩

theorem computeDiscount_bounds (c : Coupon) (total : ℚ) (h0 : 0 ≤ total)
    (hv : 0 ≤ c.discount_value) :
    0 ≤ computeDiscount c total ∧ computeDiscount c total ≤ total := by
  obtain ⟨cc, dt, dv, mo, mu, cu, ex, ia⟩ := c
  cases dt with
  | percentage =>
      exact ⟨le_min (div_nonneg (mul_nonneg h0 hv) (by norm_num)) h0,
        min_le_right _ _⟩
  | fixed => exact ⟨le_min hv h0, min_le_right _ _⟩

theorem validateCoupon_valid_bounds (coupons : List Coupon) (code : String)
    (total : ℚ) (now : Nat) (k : Coupon) (disc : ℚ)
    (hc : ∀ c ∈ coupons, 0 ≤ c.discount_value) (h0 : 0 ≤ total)
    (h : validateCoupon coupons code total now = .valid k disc) :
    0 ≤ disc ∧ disc ≤ total := by
  unfold validateCoupon at h
  cases hfind : findCoupon coupons code with
  | none =>
      rw [hfind] at h
      exact CouponValidationResult.noConfusion h
  | some c =>
      rw [hfind] at h
      simp only [] at h
      have hmem : c ∈ coupons := List.mem_of_find?_eq_some hfind
      split at h
      · exact CouponValidationResult.noConfusion h
      · split at h
        · exact CouponValidationResult.noConfusion h
        · split at h
          · exact CouponValidationResult.noConfusion h
          · split at h
            · exact CouponValidationResult.noConfusion h
            · injection h with h1 h2
              subst h2
              exact computeDiscount_bounds c total h0 (hc c hmem)

theorem reserveLines_price_nonneg (lines : List (String × Nat)) :
    ∀ products : List Product, (∀ p ∈ products, 0 ≤ p.price) →
    ∀ ps items, reserveLines products lines = Except.ok (ps, items) →
    ∀ it ∈ items, 0 ≤ it.unit_price := by
  induction lines with
  | nil =>
      intro products hp ps items h it hit
      simp only [reserveLines] at h
      injection h with h'
      injection h' with h1 h2
      subst h2
      exact absurd hit (List.not_mem_nil it)
  | cons head rest ih =>
      obtain ⟨pid, qty⟩ := head
      intro products hp ps items h it hit
      simp only [reserveLines] at h
      cases hfind : products.find? (fun p => p.id == pid) with
      | none =>
          rw [hfind] at h
          exact Except.noConfusion h
      | some p =>
          rw [hfind] at h
          simp only [] at h
          split at h
          · cases hrec : reserveLines
                (products.map (fun q =>
                  if q.id == pid then { q with stock := q.stock - (qty : Int) }
                  else q)) rest with
            | error e =>
                rw [hrec] at h
                exact Except.noConfusion h
            | ok pr2 =>
                obtain ⟨ps0, its0⟩ := pr2
                rw [hrec] at h
                simp only [] at h
                injection h with h'
                injection h' with h1 h2
                subst h2
                rcases List.mem_cons.mp hit with hhd | htl
                · subst hhd
                  exact hp p (List.mem_of_find?_eq_some hfind)
                · refine ih _ ?_ ps0 its0 hrec it htl
                  intro q hq
                  rcases List.mem_map.mp hq with ⟨q0, hq0, rfl⟩
                  split
                  · exact hp q0 hq0
                  · exact hp q0 hq0
          · exact Except.noConfusion h

theorem itemsSubtotal_nonneg (items : List OrderItem)
    (h : ∀ it ∈ items, 0 ≤ it.unit_price) : 0 ≤ itemsSubtotal items := by
  induction items with
  | nil => simp [itemsSubtotal]
  | cons a t ih =>
      have ha := h a (List.mem_cons_self a t)
      have ht : 0 ≤ itemsSubtotal t :=
        ih (fun it hit => h it (List.mem_cons_of_mem a hit))
      show 0 ≤ a.unit_price * (a.quantity : ℚ) + itemsSubtotal t
      exact add_nonneg (mul_nonneg ha (by positivity)) ht

/-- C6: every placed order satisfies the totals invariant — the order's
total is the sum of unit price × quantity over its items minus the
discount, the discount lies between 0 and the subtotal, and the total is
non-negative; and invoice generation keeps every invoice satisfying
`grand_total = subtotal − discount_amount`. -/
theorem order_total_invariant (st : StoreState) (oid : String)
    (cust : Option String) (lines : List (String × Nat))
    (code : Option String) (now : Nat) (st' : StoreState) (o : Order)
    (hp : ∀ p ∈ st.products, 0 ≤ p.price)
    (hc : ∀ c ∈ st.coupons, 0 ≤ c.discount_value)
    (h : placeOrder st oid cust lines code now = (st', Except.ok o)) :
    o.total = itemsSubtotal o.items - o.discount_amount ∧
    0 ≤ o.discount_amount ∧
    o.discount_amount ≤ itemsSubtotal o.items ∧
    0 ≤ o.total ∧
    (∀ st2 oid2 st2' inv,
      (∀ i ∈ st2.invoices, i.grand_total = i.subtotal - i.discount_amount) →
      generateInvoice st2 oid2 = (st2', Except.ok inv) →
      inv.grand_total = inv.subtotal - inv.discount_amount ∧
      ∀ i ∈ st2'.invoices, i.grand_total = i.subtotal - i.discount_amount) := by
  have hinv : ∀ st2 oid2 st2' inv,
      (∀ i ∈ st2.invoices, i.grand_total = i.subtotal - i.discount_amount) →
      generateInvoice st2 oid2 = (st2', Except.ok inv) →
      inv.grand_total = inv.subtotal - inv.discount_amount ∧
      ∀ i ∈ st2'.invoices, i.grand_total = i.subtotal - i.discount_amount := by
    intro st2 oid2 st2' inv hall hgen
    unfold generateInvoice at hgen
    cases hfind : st2.invoices.find? (fun i => i.order_id == oid2) with
    | some inv0 =>
        rw [hfind] at hgen
        injection hgen with hA hB
        subst hA
        injection hB with hB'
        subst hB'
        exact ⟨hall inv0 (List.mem_of_find?_eq_some hfind), hall⟩
    | none =>
        rw [hfind] at hgen
        cases hord : st2.orders.find? (fun o2 => o2.id == oid2) with
        | none =>
            rw [hord] at hgen
            injection hgen with hA hB
            exact Except.noConfusion hB
        | some o2 =>
            rw [hord] at hgen
            simp only [] at hgen
            injection hgen with hA hB
            injection hB with hB'
            subst hB'
            constructor
            · rfl
            · subst hA
              intro i hi
              rcases List.mem_append.mp hi with hi | hi
              · exact hall i hi
              · rcases List.mem_singleton.mp hi with rfl
                rfl
  unfold placeOrder at h
  cases hres : reserveLines st.products lines with
  | error e =>
      rw [hres] at h
      injection h with hA hB
      exact Except.noConfusion hB
  | ok pr =>
      rw [hres] at h
      obtain ⟨products', items⟩ := pr
      have hitems : ∀ it ∈ items, 0 ≤ it.unit_price :=
        reserveLines_price_nonneg lines st.products hp products' items hres
      have hsub : 0 ≤ itemsSubtotal items := itemsSubtotal_nonneg items hitems
      cases code with
      | none =>
          simp only [] at h
          injection h with hA hB
          injection hB with hB'
          subst hB'
          refine ⟨by simp, le_refl 0, ?_, ?_, hinv⟩
          · simpa using hsub
          · simpa using hsub
      | some c =>
          simp only [] at h
          cases hval : validateCoupon st.coupons c (itemsSubtotal items) now with
          | invalid reason =>
              rw [hval] at h
              injection h with hA hB
              exact Except.noConfusion hB
          | valid k disc =>
              rw [hval] at h
              simp only [] at h
              injection h with hA hB
              injection hB with hB'
              subst hB'
              have hb := validateCoupon_valid_bounds st.coupons c
                (itemsSubtotal items) now k disc hc hsub hval
              refine ⟨by simp, hb.1, ?_, ?_, hinv⟩
              · simpa using hb.2
              · simpa using sub_nonneg.mpr hb.2

/-- C6 witness: a one-line placement of one unit of a 5-per-unit product
against a store holding three units; the totals invariant holds for the
created order. -/
theorem order_total_invariant_witness :
    (⟨"o1", none, [⟨"p1", "Widget", 1, 5⟩],
        itemsSubtotal [⟨"p1", "Widget", 1, 5⟩], OrderStatus.pending,
        none, 0⟩ : Order).total =
      itemsSubtotal (⟨"o1", none, [⟨"p1", "Widget", 1, 5⟩],
          itemsSubtotal [⟨"p1", "Widget", 1, 5⟩], OrderStatus.pending,
          none, 0⟩ : Order).items -
        (⟨"o1", none, [⟨"p1", "Widget", 1, 5⟩],
            itemsSubtotal [⟨"p1", "Widget", 1, 5⟩], OrderStatus.pending,
            none, 0⟩ : Order).discount_amount :=
  (order_total_invariant
    ⟨[⟨"p1", "Widget", "SKU1", 5, 3, 1, none⟩], [], [], [], [], 1⟩
    "o1" none [("p1", 1)] none 0
    ⟨[⟨"p1", "Widget", "SKU1", 5, 2, 1, none⟩], [],
      [⟨"o1", none, [⟨"p1", "Widget", 1, 5⟩],
        itemsSubtotal [⟨"p1", "Widget", 1, 5⟩], OrderStatus.pending,
        none, 0⟩], [], [], 1⟩
    ⟨"o1", none, [⟨"p1", "Widget", 1, 5⟩],
      itemsSubtotal [⟨"p1", "Widget", 1, 5⟩], OrderStatus.pending, none, 0⟩
    (by intro q hq; simp only [List.mem_singleton] at hq; subst hq; norm_num)
    (by intro c hc; simp at hc)
    rfl).1

/-- C1: with a single product holding its last unit in stock, two order
requests for one unit each — executed in either serialization order that
the spec's atomic conditional decrement (§4.1, §5) admits — yield exactly
one created order: the first commit succeeds and appends one order, the
second receives `InsufficientStock` and appends nothing, the product's
stock ends at 0 and is never negative at any point. -/
theorem lastUnit_exactly_one_succeeds (st : StoreState) (p : Product)
    (hprod : st.products = [p]) (hstock : p.stock = 1)
    (oid1 oid2 : String) (now : Nat) :
    (∃ o1, (placeOrder st oid1 none [(p.id, 1)] none now).2 = Except.ok o1 ∧
      (placeOrder st oid1 none [(p.id, 1)] none now).1.orders =
        st.orders ++ [o1]) ∧
    (placeOrder (placeOrder st oid1 none [(p.id, 1)] none now).1 oid2 none
        [(p.id, 1)] none now).2 = Except.error PlaceError.InsufficientStock ∧
    (placeOrder (placeOrder st oid1 none [(p.id, 1)] none now).1 oid2 none
        [(p.id, 1)] none now).1.orders =
      (placeOrder st oid1 none [(p.id, 1)] none now).1.orders ∧
    stockOf (placeOrder st oid1 none [(p.id, 1)] none now).1 p.id = some 0 ∧
    stockOf (placeOrder (placeOrder st oid1 none [(p.id, 1)] none now).1
        oid2 none [(p.id, 1)] none now).1 p.id = some 0 ∧
    (∀ q ∈ (placeOrder st oid1 none [(p.id, 1)] none now).1.products,
      0 ≤ q.stock) ∧
    (∀ q ∈ (placeOrder (placeOrder st oid1 none [(p.id, 1)] none now).1
        oid2 none [(p.id, 1)] none now).1.products, 0 ≤ q.stock) := by
  obtain ⟨prods, cs, os, ks, iv, nn⟩ := st
  obtain ⟨pid, pn, psku, ppr, pst, pth, psup⟩ := p
  simp only [] at hprod hstock
  subst hprod
  subst hstock
  simp [placeOrder, reserveLines, stockOf, itemsSubtotal]

/-- C1 witness: concrete last-unit race — one product with stock 1 and two
one-unit requests; the second serialized request is refused with
`InsufficientStock`, and the first leaves stock 0. -/
theorem lastUnit_exactly_one_succeeds_witness :
    (placeOrder
        (placeOrder ⟨[⟨"p1", "Widget", "SKU1", 5, 1, 10, none⟩],
            [], [], [], [], 1⟩ "o1" none [("p1", 1)] none 0).1
        "o2" none [("p1", 1)] none 0).2 =
      Except.error PlaceError.InsufficientStock ∧
    stockOf (placeOrder ⟨[⟨"p1", "Widget", "SKU1", 5, 1, 10, none⟩],
        [], [], [], [], 1⟩ "o1" none [("p1", 1)] none 0).1 "p1" = some 0 := by
  have h := lastUnit_exactly_one_succeeds
    ⟨[⟨"p1", "Widget", "SKU1", 5, 1, 10, none⟩], [], [], [], [], 1⟩
    ⟨"p1", "Widget", "SKU1", 5, 1, 10, none⟩ rfl rfl "o1" "o2" 0
  exact ⟨h.2.1, h.2.2.2.1⟩

/-- C7: invoice generation is idempotent per order — when an invoice for
the order exists, generating again returns that very invoice (same id,
same number) and leaves the store unchanged — and it preserves the
gapless strictly-ascending numbering of invoices. -/
theorem generateInvoice_idempotent_sequential (st : StoreState)
    (oid : String) :
    (∀ inv, st.invoices.find? (fun i => i.order_id == oid) = some inv →
      generateInvoice st oid = (st, Except.ok inv)) ∧
    (InvoiceNumbersOk st → ∀ st' inv,
      generateInvoice st oid = (st', Except.ok inv) →
      InvoiceNumbersOk st') := by
  constructor
  · intro inv h
    unfold generateInvoice
    rw [h]
  · intro hOk st' inv hgen
    unfold generateInvoice at hgen
    cases hfind : st.invoices.find? (fun i => i.order_id == oid) with
    | some inv0 =>
        rw [hfind] at hgen
        injection hgen with hA hB
        subst hA
        exact hOk
    | none =>
        rw [hfind] at hgen
        cases hord : st.orders.find? (fun o => o.id == oid) with
        | none =>
            rw [hord] at hgen
            injection hgen with hA hB
            exact Except.noConfusion hB
        | some o =>
            rw [hord] at hgen
            simp only [] at hgen
            injection hgen with hA hB
            subst hA
            unfold InvoiceNumbersOk
            constructor
            · dsimp only
              rw [List.map_append, hOk.1]
              simp [hOk.2, List.range'_concat, Nat.add_comm]
            · dsimp only
              simp [hOk.2]

/-- C7 witness: a store already holding invoice number 1 for order o1 —
generating again returns that invoice and the store unchanged, and the
numbering invariant is preserved. -/
theorem generateInvoice_idempotent_sequential_witness :
    generateInvoice ⟨[], [], [], [],
        [⟨"INV-1", 1, "o1", none, [], 0, 0, 0⟩], 2⟩ "o1" =
      (⟨[], [], [], [], [⟨"INV-1", 1, "o1", none, [], 0, 0, 0⟩], 2⟩,
        Except.ok ⟨"INV-1", 1, "o1", none, [], 0, 0, 0⟩) ∧
    InvoiceNumbersOk ⟨[], [], [], [],
        [⟨"INV-1", 1, "o1", none, [], 0, 0, 0⟩], 2⟩ := by
  have h := generateInvoice_idempotent_sequential
    ⟨[], [], [], [], [⟨"INV-1", 1, "o1", none, [], 0, 0, 0⟩], 2⟩ "o1"
  have h1 := h.1 ⟨"INV-1", 1, "o1", none, [], 0, 0, 0⟩ rfl
  exact ⟨h1, h.2 ⟨rfl, rfl⟩ _ _ h1⟩

/-- C8: invoices and order items are frozen snapshots — an admin edit of a
product's price or of a customer's address leaves the invoice table and
the order table (hence every invoice field and every captured unit price)
exactly as they were, while really updating the product/customer tables
pointwise. -/
theorem invoice_frame_immutable (st : StoreState) (pid : String)
    (newPrice : ℚ) (cid addr2 : String) :
    (updateProductPrice st pid newPrice).invoices = st.invoices ∧
    (updateProductPrice st pid newPrice).orders = st.orders ∧
    (updateCustomerAddress st cid addr2).invoices = st.invoices ∧
    (updateCustomerAddress st cid addr2).orders = st.orders ∧
    (updateProductPrice st pid newPrice).products =
      st.products.map (fun p =>
        if p.id == pid then { p with price := newPrice } else p) ∧
    (updateCustomerAddress st cid addr2).customers =
      st.customers.map (fun c =>
        if c.id == cid then { c with address := addr2 } else c) :=
  ⟨rfl, rfl, rfl, rfl, rfl, rfl⟩

/-! ### Restock alert monitor theorems (C9) -/

/-- C9: at most one active alert per product.  The monitor keeps the
at-most-one-active invariant; a crossing while an active alert exists
changes nothing (no duplicate); a crossing to at-or-below threshold with
no active alert appends exactly one fresh active alert record (in
particular after a dismissal, since dismissing leaves no active alert for
the product); the admin update keeps the invariant; ordered and dismissed
alerts are terminal; and dismissing an alert leaves the product with no
active alert. -/
theorem alerts_at_most_one_active (alerts : List Alert) (nextId : Nat)
    (p : Product) (aid : Nat) (target : AlertStatus)
    (h : AtMostOneActive alerts) :
    AtMostOneActive (onStockDecrease alerts nextId p).1 ∧
    (hasActiveAlert alerts p.id = true →
      onStockDecrease alerts nextId p = (alerts, nextId)) ∧
    (p.stock ≤ p.reorder_threshold → hasActiveAlert alerts p.id = false →
      onStockDecrease alerts nextId p =
        (alerts ++ [mkAlert nextId p], nextId + 1)) ∧
    (∀ alerts2, alertUpdateStatus alerts aid target = .ok alerts2 →
      AtMostOneActive alerts2) ∧
    (∀ a, alerts.find? (fun x => x.id == aid) = some a →
      a.status = .ordered ∨ a.status = .dismissed →
      alertUpdateStatus alerts aid target = .error .IllegalAlertTransition) ∧
    (∀ a alerts2, alerts.find? (fun x => x.id == aid) = some a →
      alertUpdateStatus alerts aid .dismissed = .ok alerts2 →
      hasActiveAlert alerts2 a.product_id = false) := by
  refine ⟨?_, ?_, ?_, ?_, ?_, ?_⟩
  · unfold onStockDecrease
    split
    · next hcond =>
        unfold AtMostOneActive
        dsimp only
        rw [List.pairwise_append]
        refine ⟨h, List.pairwise_singleton _ _, ?_⟩
        intro a ha b hb
        rcases List.mem_singleton.mp hb with rfl
        rintro ⟨h1, h2, _⟩
        have : hasActiveAlert alerts p.id = true := by
          apply List.any_eq_true.mpr
          refine ⟨a, ha, ?_⟩
          simp [mkAlert] at h1
          simp [h1, h2]
        rw [this] at hcond
        exact absurd hcond.2 (by simp)
    · exact h
  · intro hact
    unfold onStockDecrease
    rw [if_neg]
    rintro ⟨_, hfalse⟩
    rw [hact] at hfalse
    exact Bool.noConfusion hfalse
  · intro hle hnoact
    unfold onStockDecrease
    rw [if_pos ⟨hle, hnoact⟩]
  · intro alerts2 hup
    unfold alertUpdateStatus at hup
    cases hfind : alerts.find? (fun x => x.id == aid) with
    | none =>
        rw [hfind] at hup
        exact Except.noConfusion hup
    | some a =>
        rw [hfind] at hup
        simp only [] at hup
        split at hup
        · next hguard =>
            injection hup with hup'
            subst hup'
            unfold AtMostOneActive
            refine List.Pairwise.map _ ?_ h
            intro x y hxy hconf
            apply hxy
            obtain ⟨h1, h2, h3⟩ := hconf
            have hpid : ∀ z : Alert,
                ((if z.id == aid then { z with status := target } else z) :
                  Alert).product_id = z.product_id := by
              intro z
              split <;> rfl
            have hstat : ∀ z : Alert,
                ((if z.id == aid then { z with status := target } else z) :
                  Alert).status = .active → z.status = .active := by
              intro z hz
              split at hz
              · rcases hguard.2 with ht | ht <;> rw [ht] at hz <;>
                  exact AlertStatus.noConfusion hz
              · exact hz
            rw [hpid x, hpid y] at h1
            exact ⟨h1, hstat x h2, hstat y h3⟩
        · exact Except.noConfusion hup
  · intro a hfind hterm
    unfold alertUpdateStatus
    rw [hfind]
    simp only []
    rw [if_neg]
    rintro ⟨h1, _⟩
    rcases hterm with h2 | h2 <;> rw [h2] at h1 <;>
      exact AlertStatus.noConfusion h1
  · intro a alerts2 hfind hup
    have haid : a.id = aid := by
      have := List.find?_some hfind
      simpa using this
    have hamem : a ∈ alerts := List.mem_of_find?_eq_some hfind
    unfold alertUpdateStatus at hup
    rw [hfind] at hup
    simp only [] at hup
    split at hup
    · next hguard =>
        injection hup with hup'
        subst hup'
        apply List.any_eq_false.mpr
        intro b' hb'
        rcases List.mem_map.mp hb' with ⟨b, hb, rfl⟩
        by_cases hbid : (b.id == aid) = true
        · simp [hbid]
        · have hbid' : (b.id == aid) = false := by simpa using hbid
          simp only [hbid', if_neg, Bool.false_eq_true, if_false]
          rintro hconf
          rw [Bool.and_eq_true, beq_iff_eq, beq_iff_eq] at hconf
          have hba : b ≠ a := by
            intro hba
            rw [hba] at hbid'
            rw [haid] at hbid'
            simp at hbid'
          have hsymm : Symmetric (fun x y : Alert =>
              ¬(x.product_id = y.product_id ∧ x.status = .active ∧
                y.status = .active)) := by
            intro x y hxy hconf2
            exact hxy ⟨hconf2.1.symm, hconf2.2.2, hconf2.2.1⟩
          have hrel := h.forall hsymm hamem hb (fun hab => hba hab.symm)
          exact hrel ⟨hconf.1.symm, hguard.1, hconf.2⟩
    · exact Except.noConfusion hup

/-- C9 witness: an empty alert table and a product whose stock 0 is at or
below its threshold 3 — the crossing appends exactly one fresh active
alert. -/
theorem alerts_at_most_one_active_witness :
    onStockDecrease [] 1 ⟨"p1", "Widget", "SKU1", 5, 0, 3, none⟩ =
      ([mkAlert 1 ⟨"p1", "Widget", "SKU1", 5, 0, 3, none⟩], 2) :=
  (alerts_at_most_one_active [] 1 ⟨"p1", "Widget", "SKU1", 5, 0, 3, none⟩
    0 AlertStatus.ordered List.Pairwise.nil).2.2.1 (by decide) rfl

/-- C10 witness: a one-line cart with product a — its ids are unique, and
adding a different product b appends exactly one new line. -/
theorem cart_unique_product_ids_witness :
    (cartIds [⟨"a", "Alpha", 2, 1⟩]).Nodup ∧
    addItem [⟨"a", "Alpha", 2, 1⟩] ⟨"b", "Beta", 3⟩ 1 =
      [⟨"a", "Alpha", 2, 1⟩] ++ [⟨"b", "Beta", 3, 1⟩] :=
  ⟨by decide,
   (cart_unique_product_ids [⟨"a", "Alpha", 2, 1⟩] (by decide)
     ⟨"b", "Beta", 3⟩ 1 "a" 0).2.2.2.2.2 rfl⟩

end Store
